import Mathlib

/-
  Verification development for the EditFlow repository.

  The numeric layer (misc.interpolate, effects.moveAnim, effects.moveToMany,
  easings.easeInQuad) is embedded over the rationals; Python float literals
  such as 0.0001 and 0.001 are taken at their decimal value.  Python's
  `int(...)` truncation toward zero is `pyInt`.
-/

namespace EditFlow

/-- Python `int(q)`: truncation toward zero. -/
def pyInt (q : ℚ) : ℤ := if q < 0 then ⌈q⌉ else ⌊q⌋

/-- `misc.interpolate(a, b, weight)`: linear interpolation, with the source's
guard that a weight equal to zero is nudged by `0.0001` before use. -/
def interpolate (a b weight : ℚ) : ℚ :=
  let w := if weight = 0 then weight + 1/10000 else weight
  a + (b - a) * w

/-- `easings.easeInQuad(x)` — the default easing of
`Tape.with_position_animation`. -/
def easeInQuad (x : ℚ) : ℚ := x * x

/-- `effects.moveAnim(t, from_position, to_position, duration, start_delay,
easing_func)`: before the delay the start position is returned unchanged; once
`t - start_delay` exceeds `duration` the end position is returned unchanged;
in between the eased progress is quantized to thousandths and both axes are
interpolated and truncated to integers. -/
def moveAnim (t : ℚ) (from_position to_position : ℚ × ℚ)
    (duration start_delay : ℚ) (easing_func : ℚ → ℚ) : ℚ × ℚ :=
  if t < start_delay then
    from_position
  else if duration < t - start_delay then
    to_position
  else
    let normalized_t := (t - start_delay) / duration
    let relWeight := (⌊easing_func normalized_t * 1000⌋ : ℚ) / 1000
    ((pyInt (interpolate from_position.1 to_position.1 relWeight) : ℚ),
     (pyInt (interpolate from_position.2 to_position.2 relWeight) : ℚ))

/-- `effects.moveToMany(t, positions, each, ease_duration, start_delay,
easing_func)`: sequential multi-keyframe motion with a dwell window of `each`
per keyframe, easing only during the first `ease_duration` of each window. -/
def moveToMany (t0 : ℚ) (positions : List (ℚ × ℚ))
    (each ease_duration start_delay : ℚ) (easing_func : ℚ → ℚ) : ℚ × ℚ :=
  let duration := (positions.length : ℚ) * each
  if t0 < start_delay then
    positions.headD (0, 0)
  else
    let t := t0 - start_delay
    if duration ≤ t then
      positions.getLastD (0, 0)
    else
      let current_index : ℤ := pyInt (t / each)
      if (positions.length : ℤ) - 1 ≤ current_index then
        positions.getLastD (0, 0)
      else
        let segment_start_time := (current_index : ℚ) * each
        let segment_time := t - segment_start_time
        if segment_time ≤ ease_duration then
          let progress := segment_time / ease_duration
          let relweight := (⌊easing_func progress * 1000⌋ : ℚ) / 1000
          let pcur := positions.getD current_index.toNat (0, 0)
          let pnext := positions.getD (current_index.toNat + 1) (0, 0)
          ((pyInt (interpolate pcur.1 pnext.1 relweight) : ℚ),
           (pyInt (interpolate pcur.2 pnext.2 relweight) : ℚ))
        else
          positions.getD (current_index.toNat + 1) (0, 0)

/-
  Python exception classes raised by the source.  The spec's error taxonomy
  maps onto them: `InvalidArgument` and `PreconditionFailed` are both raised
  as `ValueError` in the code, `NotReady` as `RuntimeError`.
-/

/-- Exception classes raised by the EditFlow source code. -/
inductive PyError : Type where
  | valueError : PyError
  | runtimeError : PyError
  | typeError : PyError
deriving DecidableEq

/-
  The timing-composition tree (component.py / tape.py / sound.py), restricted
  to the fields that the timing semantics reads: `begin`, the clip duration,
  and the children list.  `comp` embeds the base `Component` (and therefore
  also `Film` and `Screen`, which do not override `finish`/`lifetime`);
  `tape` embeds `Tape` (its clip's `duration` as second field); `sound`
  embeds `Sound`.
-/

/-- Tree nodes of the timing-composition tree. -/
inductive Node : Type where
  | comp (b : ℚ) (children : List Node)
  | tape (b : ℚ) (dur : ℚ) (children : List Node)
  | sound (b : ℚ) (dur : ℚ) (children : List Node)

/-- The `begin` attribute of a node. -/
def Node.begin : Node → ℚ
  | .comp b _ => b
  | .tape b _ _ => b
  | .sound b _ _ => b

/-- The `children` attribute of a node. -/
def Node.children : Node → List Node
  | .comp _ cs => cs
  | .tape _ _ cs => cs
  | .sound _ _ cs => cs

/-- Reassign the `begin` attribute (the tree's only mutation point). -/
def Node.setBegin : Node → ℚ → Node
  | .comp _ cs, v => .comp v cs
  | .tape _ d cs, v => .tape v d cs
  | .sound _ d cs, v => .sound v d cs

/-- Append to the `children` list, keeping the node's kind and fields. -/
def Node.appendChild : Node → Node → Node
  | .comp b cs, c => .comp b (cs ++ [c])
  | .tape b d cs, c => .tape b d (cs ++ [c])
  | .sound b d cs, c => .sound b d (cs ++ [c])

mutual

/-- `finish`: `Component.finish` returns `begin` for a childless node and
otherwise the maximum of the children's finishes; `Tape.finish` is the later
of the inherited value and `begin + clip.duration`; `Sound.finish` is
`begin + clip.duration`, ignoring children. -/
def finish : Node → ℚ
  | .comp b cs => childFinish b cs
  | .tape b d cs => max (childFinish b cs) (b + d)
  | .sound b d _ => b + d

/-- `Component.finish`'s body: `begin` if there are no children, otherwise
Python's `max` over the children's finishes. -/
def childFinish : ℚ → List Node → ℚ
  | b, [] => b
  | _, c :: cs => maxFin (finish c) cs

/-- Python `max` over a non-empty list of finishes, folded left. -/
def maxFin : ℚ → List Node → ℚ
  | acc, [] => acc
  | acc, c :: cs => maxFin (max acc (finish c)) cs

end

/-- `lifetime`: `finish - begin` for the base `Component`; `Tape` and `Sound`
both override it with the wrapped clip's duration. -/
def lifetime : Node → ℚ
  | .comp b cs => finish (.comp b cs) - b
  | .tape _ d _ => d
  | .sound _ d _ => d

/-- `Component.add_component(component, method, start)`: inserts a copy of
`component` with its `begin` set according to the placement policy, or raises
`ValueError` on an unknown policy, leaving the parent untouched.  The result
pairs the parent (`self`) after the call with the raised exception, if any.
The source's `component.copy()` is `copy.copy`, a shallow copy; in this value
model the copy is the value of `component` at call time (the aliasing that a
shallow copy creates is modelled separately by the `PyHeap` embedding). -/
def add_component (p component : Node) (method : String) (start : ℚ) :
    Node × Option PyError :=
  let component_copy := component
  if method = "compose" then
    (p.appendChild (component_copy.setBegin (p.begin + start)), none)
  else if method = "concat" then
    match p.children.getLast? with
    | none => (p.appendChild (component_copy.setBegin start), none)
    | some prev => (p.appendChild (component_copy.setBegin (finish prev + start)), none)
  else if method = "last" then
    match p.children.getLast? with
    | none => (p.appendChild (component_copy.setBegin start), none)
    | some prev => (p.appendChild (component_copy.setBegin (prev.begin + start)), none)
  else
    (p, some .valueError)

/-
  The grid resolver (grid.py).  The clip argument is reduced to its intrinsic
  pixel size `(clip_w, clip_h)`, the only attributes `get_coords` reads.
-/

/-- Python `anchor.lower()`: lowercasing of the anchor string, character by
character (the anchor alphabet is ASCII). -/
def pyLower (s : String) : String := String.mk (s.data.map Char.toLower)

/-- Python `s.strip(" ")`: remove space characters from both ends. -/
def pyStripSpaces (s : String) : String :=
  String.mk (((s.data.dropWhile (fun c => c = ' ')).reverse.dropWhile
    (fun c => c = ' ')).reverse)

/-- `GridSystem`: screen size and the 12-division column/row gaps. -/
structure GridSystem : Type where
  screen_size : ℚ × ℚ
  column_gap : ℚ
  row_gap : ℚ
deriving DecidableEq

/-- `GridSystem.__init__(screen_size)`. -/
def GridSystem.ofSize (size : ℚ × ℚ) : GridSystem :=
  { screen_size := size, column_gap := size.1 / 12, row_gap := size.2 / 12 }

/-- The nine anchor names accepted by `GridSystem.get_coords`. -/
def validAnchors : List String :=
  ["center", "left", "right", "top", "bottom",
   "topleft", "topright", "bottomleft", "bottomright"]

/-- `GridSystem.get_coords(clip, pos, span, anchor, offset)`: pixel
coordinates for a clip of size `(clip_w, clip_h)` placed at grid cell
`pos = (row, column)` with the given anchor and pixel offset; an unknown
anchor (after lowercasing and space-stripping) raises `ValueError`.  The
`span` parameter is unused by the source body and omitted. -/
def GridSystem.get_coords (g : GridSystem) (clip_w clip_h : ℚ)
    (pos : ℤ × ℤ) (anchor : String) (offset : ℚ × ℚ) :
    Except PyError (ℚ × ℚ) :=
  let column_gap := g.column_gap
  let row_gap := g.row_gap
  let offset_anchor := pyStripSpaces (pyLower anchor)
  let row : ℚ := (pos.1 : ℚ)
  let column : ℚ := (pos.2 : ℚ)
  let default_x := column * column_gap
  let default_y := row * row_gap
  let offset_x := offset.1
  let offset_y := offset.2
  if offset_anchor = "center" then
    .ok ((default_x + column_gap/2) - clip_w/2, (default_y + row_gap/2) - clip_h/2)
  else if offset_anchor = "left" then
    .ok (default_x - offset_x*(clip_w/2), (default_y + row_gap/2) - clip_h/2)
  else if offset_anchor = "top" then
    .ok ((default_x + column_gap/2) - clip_w/2, default_y - offset_y*(clip_h/2))
  else if offset_anchor = "right" then
    .ok ((default_x + column_gap) - clip_w + offset_x*(clip_w/2),
         (default_y + row_gap/2) - clip_h/2)
  else if offset_anchor = "bottom" then
    .ok ((default_x + column_gap/2) - clip_w/2,
         default_y + row_gap - clip_h + offset_y*(clip_h/2))
  else if offset_anchor = "topleft" then
    .ok (default_x - offset_x*(clip_w/2), default_y - offset_y*(clip_h/2))
  else if offset_anchor = "topright" then
    .ok ((default_x + column_gap) - clip_w + offset_x*(clip_w/2),
         default_y - offset_y*(clip_h/2))
  else if offset_anchor = "bottomleft" then
    .ok (default_x - offset_x*(clip_w/2),
         default_y + row_gap - clip_h + offset_y*(clip_h/2))
  else if offset_anchor = "bottomright" then
    .ok ((default_x + column_gap) - clip_w + offset_x*(clip_w/2),
         default_y + row_gap - clip_h + offset_y*(clip_h/2))
  else
    .error .valueError

/-
  The Screen state machine (screen.py), restricted to the state the guard
  logic reads: the component tree (begin and films), the background music
  slot, the cached resolved handle `_end`, and `total_duration`.  The body of
  `compose()` between its guard and the assignment of `_end` builds the
  composite through the external renderable-clip capability (spec excludes
  it), so the resolved handle is embedded as the opaque value `()`.
-/

/-- The `Screen` object state. -/
structure ScreenS : Type where
  size : ℚ × ℚ
  fps : ℕ
  grid : GridSystem
  tree : Node
  bg_music : Option (Node × ℚ × ℚ × ℚ)
  endHandle : Option Unit
  totalDuration : Option ℚ

/-- `Screen.__init__(size, fps, ...)`: empty children, no background music,
`_end = None`. -/
def ScreenS.init (size : ℚ × ℚ) (fps : ℕ) : ScreenS :=
  { size := size, fps := fps, grid := GridSystem.ofSize size,
    tree := .comp 0 [], bg_music := none, endHandle := none,
    totalDuration := none }

/-- `Screen.add_film(film, method, start)`: rejects an empty film with
`ValueError`, otherwise inserts it through `add_component`. -/
def ScreenS.add_film (s : ScreenS) (film : Node) (method : String)
    (start : ℚ) : ScreenS × Option PyError :=
  if film.children.length = 0 then
    (s, some .valueError)
  else
    let r := add_component s.tree film method start
    ({ s with tree := r.1 }, r.2)

/-- `Screen.add_bg_music(sound, fadein, fadeout, start_offset)`: stores a
copy of the sound with its fades and offset. -/
def ScreenS.add_bg_music (s : ScreenS) (snd : Node)
    (fadein fadeout start_offset : ℚ) : ScreenS :=
  { s with bg_music := some (snd, fadein, fadeout, start_offset) }

/-- `Screen.compose()`: raises `ValueError` when the screen has no films and
leaves the state untouched; otherwise records the total duration and caches
the resolved composition handle. -/
def ScreenS.compose (s : ScreenS) : ScreenS × Option PyError :=
  if s.tree.children.length = 0 then
    (s, some .valueError)
  else
    ({ s with totalDuration := some (finish s.tree), endHandle := some () },
     none)

/-- `Screen._ensure_ready()`: raises `RuntimeError` while `_end` is unset. -/
def ScreenS.ensure_ready (s : ScreenS) : Except PyError Bool :=
  match s.endHandle with
  | none => .error .runtimeError
  | some _ => .ok true

/-- `Screen.render(filename, ...)`: guarded by `_ensure_ready`; the actual
file write belongs to the external compositor. -/
def ScreenS.render (s : ScreenS) : Except PyError Unit := do
  let _ ← s.ensure_ready
  return ()

/-- `Screen.get_end_video()`: guarded by `_ensure_ready`, returns `_end`. -/
def ScreenS.get_end_video (s : ScreenS) : Except PyError Unit := do
  let _ ← s.ensure_ready
  match s.endHandle with
  | none => return ()
  | some h => return h

/-- `Screen.show(...)` (renamed: `show` is reserved in Lean): guarded by
`_ensure_ready`. -/
def ScreenS.show_window (s : ScreenS) : Except PyError Unit := do
  let _ ← s.ensure_ready
  return ()

/-- `Screen.preview(...)`: guarded by `_ensure_ready`. -/
def ScreenS.preview (s : ScreenS) : Except PyError Unit := do
  let _ ← s.ensure_ready
  return ()

/-- Screen states reachable by construction and tree-building calls alone,
with no successful `compose()` in between: the initial state, and the states
after `add_film` / `add_bg_music`. -/
inductive BuiltWithoutCompose : ScreenS → Prop where
  | init (size : ℚ × ℚ) (fps : ℕ) : BuiltWithoutCompose (ScreenS.init size fps)
  | addFilm (s : ScreenS) (film : Node) (method : String) (start : ℚ) :
      BuiltWithoutCompose s →
      BuiltWithoutCompose (s.add_film film method start).1
  | addBgMusic (s : ScreenS) (snd : Node) (fi fo off : ℚ) :
      BuiltWithoutCompose s →
      BuiltWithoutCompose (s.add_bg_music snd fi fo off)

/-
  Heap embedding of Python object semantics, needed where reference sharing
  is observable: `Component.copy` is `copy.copy(self)`, which copies the
  attribute slots of the object but shares every referenced container.  An
  object here carries the `Tape` attribute set relevant to the claims:
  `begin` (a value slot), references to its `children` list cell, its
  `effects` list cell and its `AnimationSet` cell, plus its clip duration and
  a kind flag (a `Tape` folds `begin + clip.duration` into `finish`).
  Effects and animation sets are opaque to the timing semantics and are
  embedded as numeric tokens.
-/

/-- One Python object: attribute slots, with containers held by reference. -/
structure PyObj : Type where
  begin : ℚ
  childrenRef : ℕ
  effectsRef : ℕ
  animsRef : ℕ
  clipDur : ℚ
  isTape : Bool
deriving DecidableEq

/-- The Python heap: objects and the container cells they reference. -/
structure PyHeap : Type where
  objs : List PyObj
  childCells : List (List ℕ)
  effectCells : List (List ℕ)
  animCells : List ℕ
deriving DecidableEq

/-- Dereference an object address. -/
def PyHeap.obj (h : PyHeap) (a : ℕ) : PyObj :=
  h.objs.getD a ⟨0, 0, 0, 0, 0, false⟩

/-- `copy.copy(obj)`: allocate a new object with the same attribute slots;
every container reference is shared with the source object. -/
def PyHeap.shallowCopy (h : PyHeap) (src : ℕ) : PyHeap × ℕ :=
  ({ h with objs := h.objs ++ [h.obj src] }, h.objs.length)

/-- `obj.begin = v`: rebind the `begin` attribute slot. -/
def PyHeap.setBegin (h : PyHeap) (a : ℕ) (v : ℚ) : PyHeap :=
  { h with objs := h.objs.set a { h.obj a with begin := v } }

/-- The contents of `obj.children`, read through the object's reference. -/
def PyHeap.childList (h : PyHeap) (a : ℕ) : List ℕ :=
  h.childCells.getD (h.obj a).childrenRef []

/-- `obj.children.append(x)`: in-place mutation of the referenced cell. -/
def PyHeap.appendChild (h : PyHeap) (a x : ℕ) : PyHeap :=
  { h with childCells :=
      h.childCells.set (h.obj a).childrenRef (h.childList a ++ [x]) }

/-- The contents of `obj.effects`. -/
def PyHeap.effectList (h : PyHeap) (a : ℕ) : List ℕ :=
  h.effectCells.getD (h.obj a).effectsRef []

/-- `obj.effects.append(e)`: in-place mutation of the referenced cell. -/
def PyHeap.appendEffect (h : PyHeap) (a e : ℕ) : PyHeap :=
  { h with effectCells :=
      h.effectCells.set (h.obj a).effectsRef (h.effectList a ++ [e]) }

/-- The animation-set value the object currently references. -/
def PyHeap.animVal (h : PyHeap) (a : ℕ) : ℕ :=
  h.animCells.getD (h.obj a).animsRef 0

/-- `obj.animations = v`: allocate a fresh animation-set cell and rebind the
object's `animations` attribute slot to it. -/
def PyHeap.replaceAnims (h : PyHeap) (a : ℕ) (v : ℕ) : PyHeap :=
  { h with animCells := h.animCells ++ [v],
           objs := h.objs.set a { h.obj a with animsRef := h.animCells.length } }

/-- `finish` over the heap, with fuel for the recursion over children (the
source recursion terminates on every acyclic heap; `add_componentH` passes
the object count as fuel, which is exact there). -/
def finishH : ℕ → PyHeap → ℕ → ℚ
  | 0, h, a => (h.obj a).begin
  | fuel + 1, h, a =>
    let o := h.obj a
    let superF :=
      match (h.childList a).map (finishH fuel h) with
      | [] => o.begin
      | f :: fs => fs.foldl max f
    if o.isTape then max superF (o.begin + o.clipDur) else superF

/-- `Component.add_component` over the heap: shallow-copy the argument,
assign the copy's `begin` per the policy, and append the copy's address to
the parent's children cell.  Returns the heap, the raised exception if any,
and the copy's address. -/
def add_componentH (h : PyHeap) (p c : ℕ) (method : String) (start : ℚ) :
    PyHeap × Option PyError × ℕ :=
  let r := h.shallowCopy c
  let h1 := r.1
  let k := r.2
  if method = "compose" then
    ((h1.setBegin k ((h1.obj p).begin + start)).appendChild p k, none, k)
  else if method = "concat" then
    match (h1.childList p).getLast? with
    | none => ((h1.setBegin k start).appendChild p k, none, k)
    | some prev =>
        ((h1.setBegin k (finishH h1.objs.length h1 prev + start)).appendChild p k,
         none, k)
  else if method = "last" then
    match (h1.childList p).getLast? with
    | none => ((h1.setBegin k start).appendChild p k, none, k)
    | some prev =>
        ((h1.setBegin k ((h1.obj prev).begin + start)).appendChild p k, none, k)
  else
    (h1, some .valueError, k)

/-- One-level observation of an object: its `begin`, and the contents read
through each of its container references. -/
def observe (h : PyHeap) (a : ℕ) : ℚ × List ℕ × List ℕ × ℕ :=
  ((h.obj a).begin, h.childList a, h.effectList a, h.animVal a)

/-- The mutations of the caller's original instance named by the claim. -/
inductive CallerMutation : Type where
  | reassignBegin (v : ℚ)
  | appendToChildren (x : ℕ)
  | appendToEffects (e : ℕ)
  | replaceAnimations (v : ℕ)

/-- Run a caller mutation against object `a`. -/
def applyMutation (h : PyHeap) (a : ℕ) : CallerMutation → PyHeap
  | .reassignBegin v => h.setBegin a v
  | .appendToChildren x => h.appendChild a x
  | .appendToEffects e => h.appendEffect a e
  | .replaceAnimations v => h.replaceAnims a v

/-- Insert a sequence of children into `p`, each under the `"concat"` policy
with its own gap value, in order. -/
def insertConcatAll (p : Node) : List (Node × ℚ) → Node
  | [] => p
  | (c, g) :: rest => insertConcatAll (add_component p c "concat" g).1 rest

/-- The extent a node spans in the tree: `finish - begin`.  For a base
`Component` this coincides with `lifetime`; for a `Tape` it does not once a
child outlasts the clip. -/
def ext (n : Node) : ℚ := finish n - n.begin

/-- Claim C6 as stated: under `"concat"`, the `i`-th child's `begin` is the
sum of the previous children's lifetimes plus the gaps `g_1..g_i`, for every
mix of child node kinds. -/
def claimC6Statement : Prop :=
  ∀ (p : Node) (pairs : List (Node × ℚ)) (i : ℕ), p.children = [] → i < pairs.length →
    ((insertConcatAll p pairs).children.getD i (.comp 0 [])).begin =
      (((insertConcatAll p pairs).children.take i).map lifetime).sum +
      ((pairs.map Prod.snd).take (i + 1)).sum

/-- Claim C7 as stated: every childless node of any kind has
`finish = begin` and `lifetime = 0`. -/
def claimC7Statement : Prop :=
  ∀ n : Node, n.children = [] → finish n = n.begin ∧ lifetime n = 0

/-- Claim C5 as stated: each of the nine anchors adjusts the output by the
supplied offset, scaled per axis as `offset · (dimension/2)`, with some
nonzero sign pair fixed by the anchor. -/
def claimC5Statement : Prop :=
  ∀ a ∈ validAnchors, ∃ sx sy : ℚ, sx ≠ 0 ∧ sy ≠ 0 ∧
    ∀ (g : GridSystem) (w h : ℚ) (cell : ℤ × ℤ) (ox oy : ℚ),
      GridSystem.get_coords g w h cell a (ox, oy) =
        (GridSystem.get_coords g w h cell a (0, 0)).map
          (fun q => (q.1 + sx * ox * (w/2), q.2 + sy * oy * (h/2)))

/-- A two-object heap: a parent component at address `0` and a tape-like
child at address `1` with clip duration `5`, each owning its own cells. -/
def exHeap : PyHeap :=
  { objs := [⟨0, 0, 0, 0, 0, false⟩, ⟨0, 1, 1, 1, 5, true⟩],
    childCells := [[], []], effectCells := [[], []], animCells := [0, 0] }

/-- Claim C1 as stated: after inserting `c` under any valid policy, every
mutation of the caller's original instance leaves the inserted copy's
observable state unchanged. -/
def claimC1Statement : Prop :=
  ∀ (h : PyHeap) (p c : ℕ) (method : String) (start : ℚ) (m : CallerMutation),
    (method = "compose" ∨ method = "concat" ∨ method = "last") →
    observe (applyMutation (add_componentH h p c method start).1 c m)
        (add_componentH h p c method start).2.2
      = observe (add_componentH h p c method start).1
        (add_componentH h p c method start).2.2

/-- Python `int(q)` agrees with the floor on non-negative arguments. -/
theorem pyInt_eq_floor (q : ℚ) (h : 0 ≤ q) : pyInt q = ⌊q⌋ := by
  simp only [pyInt]
  rw [if_neg (not_lt.2 h)]

/-- C3: `moveAnim` returns exactly the from-position while `t < start_delay`,
exactly the to-position once `t - start_delay > duration`, and in between the
per-axis truncated interpolation under the thousandth-quantized eased weight
`⌊f((t-sd)/d)·1000⌋/1000`; in particular at `t = start_delay - 0.001` it is
exactly the from-position, and at `t = start_delay + duration + 0.001`
exactly the to-position. -/
theorem C3_moveAnim_branches (fp tp : ℚ × ℚ) (d sd t : ℚ) (f : ℚ → ℚ)
    (hd : 0 < d) :
    (t < sd → moveAnim t fp tp d sd f = fp) ∧
    (d < t - sd → moveAnim t fp tp d sd f = tp) ∧
    (sd ≤ t → t - sd ≤ d →
      moveAnim t fp tp d sd f =
        ((pyInt (interpolate fp.1 tp.1 ((⌊f ((t - sd) / d) * 1000⌋ : ℚ) / 1000)) : ℚ),
         (pyInt (interpolate fp.2 tp.2 ((⌊f ((t - sd) / d) * 1000⌋ : ℚ) / 1000)) : ℚ))) ∧
    moveAnim (sd - 1/1000) fp tp d sd f = fp ∧
    moveAnim (sd + d + 1/1000) fp tp d sd f = tp := by
  refine ⟨?_, ?_, ?_, ?_, ?_⟩
  · intro h
    simp only [moveAnim]
    rw [if_pos h]
  · intro h
    have h1 : ¬ t < sd := by linarith
    simp only [moveAnim]
    rw [if_neg h1, if_pos h]
  · intro h1 h2
    have h1' : ¬ t < sd := by linarith
    have h2' : ¬ d < t - sd := by linarith
    simp only [moveAnim]
    rw [if_neg h1', if_neg h2']
  · have h : sd - 1/1000 < sd := by linarith
    simp only [moveAnim]
    rw [if_pos h]
  · have h1 : ¬ sd + d + 1/1000 < sd := by linarith
    have h2 : d < sd + d + 1/1000 - sd := by linarith
    simp only [moveAnim]
    rw [if_neg h1, if_pos h2]

/-- C3 witness: a run of `moveAnim` from `(0,0)` to `(100,0)` with the
default easing, duration `1`, delay `0`: the mid-animation branch applies at
`t = 1/2` and the pre-delay boundary instance returns `(0,0)`. -/
theorem C3_moveAnim_witness :
    (0 : ℚ) < 1 ∧ (0 : ℚ) ≤ (1/2 : ℚ) ∧ (1/2 : ℚ) - 0 ≤ 1 ∧
    moveAnim (1/2) (0, 0) (100, 0) 1 0 easeInQuad =
      ((pyInt (interpolate ((0:ℚ), (0:ℚ)).1 ((100:ℚ), (0:ℚ)).1 ((⌊easeInQuad (((1:ℚ)/2 - 0) / 1) * 1000⌋ : ℚ) / 1000)) : ℚ),
       (pyInt (interpolate ((0:ℚ), (0:ℚ)).2 ((100:ℚ), (0:ℚ)).2 ((⌊easeInQuad (((1:ℚ)/2 - 0) / 1) * 1000⌋ : ℚ) / 1000)) : ℚ)) ∧
    moveAnim (0 - 1/1000) (0, 0) (100, 0) 1 0 easeInQuad = (0, 0) := by
  refine ⟨by norm_num, by norm_num, by norm_num, ?_, ?_⟩
  · exact (C3_moveAnim_branches (0,0) (100,0) 1 0 (1/2) easeInQuad (by norm_num)).2.2.1
      (by norm_num) (by norm_num)
  · exact (C3_moveAnim_branches (0,0) (100,0) 1 0 (1/2) easeInQuad (by norm_num)).2.2.2.1

/-- C4: `moveToMany` returns the first keyframe before the delay, the last
keyframe once `t - start_delay ≥ len·each`, and otherwise, for segment index
`i = ⌊(t-sd)/each⌋`: the last keyframe when `i ≥ len - 1`; the quantized
eased interpolation from `ps[i]` toward `ps[i+1]` while the time within the
segment is at most `ease_duration`; and exactly `ps[i+1]` (holding) once it
exceeds `ease_duration`.  The spec's concrete instances follow: with
keyframes `[(0,0),(100,0),(200,0)]`, `each = 1`, `ease_duration = 1/2`,
`start_delay = 0`, time `0` gives `(0,0)` (for an easing with `f 0 = 0`, as
all the library's curves satisfy), time `3/4` gives `(100,0)` and time `3`
gives `(200,0)`. -/
theorem C4_moveToMany_branches (ps : List (ℚ × ℚ)) (each ed sd t0 : ℚ)
    (f : ℚ → ℚ) (hne : ps ≠ []) (he : 0 < each) (hed : 0 < ed) :
    (t0 < sd → moveToMany t0 ps each ed sd f = ps.headD (0, 0)) ∧
    ((ps.length : ℚ) * each ≤ t0 - sd →
      moveToMany t0 ps each ed sd f = ps.getLastD (0, 0)) ∧
    (∀ i : ℤ, sd ≤ t0 → t0 - sd < (ps.length : ℚ) * each →
      i = ⌊(t0 - sd) / each⌋ → (ps.length : ℤ) - 1 ≤ i →
      moveToMany t0 ps each ed sd f = ps.getLastD (0, 0)) ∧
    (∀ i : ℤ, sd ≤ t0 → t0 - sd < (ps.length : ℚ) * each →
      i = ⌊(t0 - sd) / each⌋ → i < (ps.length : ℤ) - 1 →
      (t0 - sd) - (i : ℚ) * each ≤ ed →
      moveToMany t0 ps each ed sd f =
        ((pyInt (interpolate (ps.getD i.toNat (0, 0)).1 (ps.getD (i.toNat + 1) (0, 0)).1
            ((⌊f (((t0 - sd) - (i : ℚ) * each) / ed) * 1000⌋ : ℚ) / 1000)) : ℚ),
         (pyInt (interpolate (ps.getD i.toNat (0, 0)).2 (ps.getD (i.toNat + 1) (0, 0)).2
            ((⌊f (((t0 - sd) - (i : ℚ) * each) / ed) * 1000⌋ : ℚ) / 1000)) : ℚ))) ∧
    (∀ i : ℤ, sd ≤ t0 → t0 - sd < (ps.length : ℚ) * each →
      i = ⌊(t0 - sd) / each⌋ → i < (ps.length : ℤ) - 1 →
      ed < (t0 - sd) - (i : ℚ) * each →
      moveToMany t0 ps each ed sd f = ps.getD (i.toNat + 1) (0, 0)) ∧
    (f 0 = 0 → moveToMany 0 [(0,0),(100,0),(200,0)] 1 (1/2) 0 f = (0, 0)) ∧
    moveToMany (3/4) [(0,0),(100,0),(200,0)] 1 (1/2) 0 f = (100, 0) ∧
    moveToMany 3 [(0,0),(100,0),(200,0)] 1 (1/2) 0 f = (200, 0) := by
  have hlen : 0 < ps.length := List.length_pos.2 hne
  have hlenQ : (0 : ℚ) < (ps.length : ℚ) * each := by
    apply mul_pos _ he
    exact_mod_cast hlen
  refine ⟨?_, ?_, ?_, ?_, ?_, ?_, ?_, ?_⟩
  · intro h
    simp only [moveToMany]
    rw [if_pos h]
  · intro h
    have h1 : ¬ t0 < sd := by
      intro hc
      have : t0 - sd < 0 := by linarith
      linarith
    simp only [moveToMany]
    rw [if_neg h1, if_pos h]
  · intro i h1 h2 hi hlast
    have h1' : ¬ t0 < sd := not_lt.2 h1
    have h2' : ¬ (ps.length : ℚ) * each ≤ t0 - sd := not_le.2 h2
    have hq : (0 : ℚ) ≤ (t0 - sd) / each := by
      apply div_nonneg (by linarith) (le_of_lt he)
    simp only [moveToMany]
    rw [if_neg h1', if_neg h2', pyInt_eq_floor _ hq, ← hi, if_pos hlast]
  · intro i h1 h2 hi hlt hseg
    have h1' : ¬ t0 < sd := not_lt.2 h1
    have h2' : ¬ (ps.length : ℚ) * each ≤ t0 - sd := not_le.2 h2
    have hq : (0 : ℚ) ≤ (t0 - sd) / each := by
      apply div_nonneg (by linarith) (le_of_lt he)
    simp only [moveToMany]
    rw [if_neg h1', if_neg h2', pyInt_eq_floor _ hq, ← hi,
      if_neg (not_le.2 hlt), if_pos hseg]
  · intro i h1 h2 hi hlt hseg
    have h1' : ¬ t0 < sd := not_lt.2 h1
    have h2' : ¬ (ps.length : ℚ) * each ≤ t0 - sd := not_le.2 h2
    have hq : (0 : ℚ) ≤ (t0 - sd) / each := by
      apply div_nonneg (by linarith) (le_of_lt he)
    simp only [moveToMany]
    rw [if_neg h1', if_neg h2', pyInt_eq_floor _ hq, ← hi,
      if_neg (not_le.2 hlt), if_neg (not_le.2 hseg)]
  · intro hf
    norm_num [moveToMany, pyInt, interpolate, hf]
  · norm_num [moveToMany, pyInt, interpolate]
  · norm_num [moveToMany, pyInt, interpolate]

/-- C4 witness: on the spec's keyframes at `t = 1/4` (inside the easing
window of segment `0`) the interpolation branch yields `(25, 0)` under the
default easing, and at `t = 3` the clamped last keyframe `(200, 0)`. -/
theorem C4_moveToMany_witness :
    moveToMany (1/4) [(0,0),(100,0),(200,0)] 1 (1/2) 0 easeInQuad = (25, 0) ∧
    moveToMany 3 [(0,0),(100,0),(200,0)] 1 (1/2) 0 easeInQuad = (200, 0) := by
  have h := C4_moveToMany_branches [(0,0),(100,0),(200,0)] 1 (1/2) 0 (1/4)
    easeInQuad (by simp) (by norm_num) (by norm_num)
  constructor
  · have h4 := h.2.2.2.1 0 (by norm_num) (by norm_num) (by norm_num)
      (by norm_num) (by norm_num)
    rw [h4]
    norm_num [pyInt, interpolate, easeInQuad]
  · exact h.2.2.2.2.2.2.2

/-- Appending a child extends the children list on the right for every node
kind. -/
lemma appendChild_children (q x : Node) :
    (q.appendChild x).children = q.children ++ [x] := by
  cases q <;> simp [Node.appendChild, Node.children]

/-- Reassigning `begin` stores the assigned value for every node kind. -/
lemma setBegin_begin (x : Node) (v : ℚ) : (x.setBegin v).begin = v := by
  cases x <;> simp [Node.setBegin, Node.begin]

/-- C2: a successful `add_component` sets the inserted copy's `begin` to
`parent.begin + start` under `"compose"`; to `start` (no prior children) or
`previous_sibling.finish + start` under `"concat"`; and to `start` (no prior
children) or `previous_sibling.begin + start` under `"last"`. -/
theorem C2_add_component_begin (p c : Node) (s : ℚ) :
    ((add_component p c "compose" s).2 = none ∧
      ((add_component p c "compose" s).1.children.getLastD c).begin = p.begin + s) ∧
    (p.children = [] →
      (add_component p c "concat" s).2 = none ∧
      ((add_component p c "concat" s).1.children.getLastD c).begin = s) ∧
    (∀ prev, p.children.getLast? = some prev →
      (add_component p c "concat" s).2 = none ∧
      ((add_component p c "concat" s).1.children.getLastD c).begin = finish prev + s) ∧
    (p.children = [] →
      (add_component p c "last" s).2 = none ∧
      ((add_component p c "last" s).1.children.getLastD c).begin = s) ∧
    (∀ prev, p.children.getLast? = some prev →
      (add_component p c "last" s).2 = none ∧
      ((add_component p c "last" s).1.children.getLastD c).begin = prev.begin + s) := by
  refine ⟨⟨?_, ?_⟩, ?_, ?_, ?_, ?_⟩
  · simp [add_component]
  · simp [add_component, appendChild_children, setBegin_begin]
  · intro hp
    have h : p.children.getLast? = none := by simp [hp]
    simp [add_component, h, appendChild_children, setBegin_begin]
  · intro prev hprev
    simp [add_component, hprev, appendChild_children, setBegin_begin]
  · intro hp
    have h : p.children.getLast? = none := by simp [hp]
    simp [add_component, h, appendChild_children, setBegin_begin]
  · intro prev hprev
    simp [add_component, hprev, appendChild_children, setBegin_begin]

/-- C2 witness: concrete insertions — `"compose"` into a parent with
`begin = 5` and gap `2` yields `begin = 7`; `"concat"` into an empty parent
yields `2`; `"concat"` after a sibling finishing at `3` yields `5`;
`"last"` after a sibling beginning at `1` yields `3`. -/
theorem C2_witness :
    ((add_component (.comp 5 []) (.comp 0 []) "compose" 2).1.children.getLastD (.comp 0 [])).begin = 7 ∧
    ((add_component (.comp 5 []) (.comp 0 []) "concat" 2).1.children.getLastD (.comp 0 [])).begin = 2 ∧
    ((add_component (.comp 0 [.tape 1 2 []]) (.comp 0 []) "concat" 2).1.children.getLastD (.comp 0 [])).begin = 5 ∧
    ((add_component (.comp 0 [.tape 1 2 []]) (.comp 0 []) "last" 2).1.children.getLastD (.comp 0 [])).begin = 3 := by
  have h1 := C2_add_component_begin (.comp 5 []) (.comp 0 []) 2
  have h2 := C2_add_component_begin (.comp 0 [.tape 1 2 []]) (.comp 0 []) 2
  refine ⟨?_, ?_, ?_, ?_⟩
  · rw [h1.1.2]
    simp [Node.begin]
    norm_num
  · exact (h1.2.1 rfl).2
  · rw [(h2.2.2.1 (.tape 1 2 []) rfl).2]
    norm_num [finish, childFinish]
  · rw [(h2.2.2.2.2 (.tape 1 2 []) rfl).2]
    simp [Node.begin]
    norm_num

/-- C7 counterexample: the claim fails at a childless `Tape` with clip
duration `1`, whose `lifetime` is `1`, not `0` (and whose `finish` is
`begin + 1`). -/
theorem C7_counterexample : ¬ claimC7Statement := by
  intro h
  have h2 := (h (.tape 0 1 []) rfl).2
  norm_num [lifetime] at h2

/-- C7 amended: a childless base `Component` satisfies `finish = begin` and
`lifetime = 0`; a childless `Tape` instead satisfies `finish = begin +
clip.duration` (for a non-negative duration) and `lifetime = clip.duration`,
and a childless `Sound` likewise. -/
theorem C7_childless_amended (b d : ℚ) (hd : 0 ≤ d) :
    (finish (.comp b []) = b ∧ lifetime (.comp b []) = 0) ∧
    (finish (.tape b d []) = b + d ∧ lifetime (.tape b d []) = d) ∧
    (finish (.sound b d []) = b + d ∧ lifetime (.sound b d []) = d) := by
  refine ⟨⟨?_, ?_⟩, ⟨?_, ?_⟩, ⟨?_, ?_⟩⟩
  · simp [finish, childFinish]
  · simp [lifetime, finish, childFinish]
  · show max (childFinish b []) (b + d) = b + d
    rw [show childFinish b [] = b from rfl, max_eq_right (by linarith)]
  · simp [lifetime]
  · simp [finish]
  · simp [lifetime]

/-- C7 amended witness: the childless `Tape` with `begin = 0`, duration `1`
finishes at `1`. -/
theorem C7_childless_amended_witness :
    (0 : ℚ) ≤ 1 ∧ finish (.tape 0 1 []) = 0 + 1 := by
  exact ⟨by norm_num, (C7_childless_amended 0 1 (by norm_num)).2.1.1⟩

/-- C10: a `Sound` node's `finish` is `begin + clip.duration` and its
`lifetime` is `clip.duration`, whatever children it carries — the generic
child-derived maximum rule of `Component.finish` is not consulted. -/
theorem C10_sound_finish (b d : ℚ) (cs : List Node) :
    finish (.sound b d cs) = b + d ∧ lifetime (.sound b d cs) = d := by
  constructor
  · simp [finish]
  · simp [lifetime]

/-- `insertConcatAll` distributes over list append. -/
lemma insertConcatAll_append (p : Node) (xs ys : List (Node × ℚ)) :
    insertConcatAll p (xs ++ ys) = insertConcatAll (insertConcatAll p xs) ys := by
  induction xs generalizing p with
  | nil => simp [insertConcatAll]
  | cons x xs ih =>
    cases x with
    | mk c g => simp [insertConcatAll, ih]

/-- `"concat"` insertion into a childless parent: one child with
`begin = start`. -/
lemma concat_children_empty (p c : Node) (g : ℚ) (h : p.children = []) :
    (add_component p c "concat" g).1.children = [c.setBegin g] := by
  have h' : p.children.getLast? = none := by simp [h]
  simp [add_component, h', appendChild_children, h]

/-- `"concat"` insertion after a last sibling: appends one child with
`begin = finish prev + start`. -/
lemma concat_children_snoc (p c prev : Node) (g : ℚ)
    (h : p.children.getLast? = some prev) :
    (add_component p c "concat" g).1.children
      = p.children ++ [c.setBegin (finish prev + g)] := by
  simp [add_component, h, appendChild_children]

/-- A list's sum splits off its last element. -/
lemma sum_take_length_sub_one (l : List ℚ) (h : l ≠ []) :
    (l.take (l.length - 1)).sum + l.getLast h = l.sum := by
  have hlen : 0 < l.length := List.length_pos.2 h
  have h1 : l.length - 1 < l.length := by omega
  have h2 := List.sum_take_succ l (l.length - 1) h1
  rw [show l.length - 1 + 1 = l.length from by omega, List.take_length] at h2
  rw [h2]
  congr 1
  rw [List.getLast_eq_getElem]

/-- `getD` at the last index is `getLast`. -/
lemma getD_length_sub_one (l : List Node) (h : l ≠ []) (d : Node) :
    l.getD (l.length - 1) d = l.getLast h := by
  have hlen : 0 < l.length := List.length_pos.2 h
  rw [List.getD_eq_getElem l d (by omega : l.length - 1 < l.length),
    List.getLast_eq_getElem]

/-- Invariant of repeated `"concat"` insertion into an initially childless
parent: each child's `begin` is the sum of the extents (`finish - begin`) of
the previous children plus the gaps up to and including its own. -/
lemma C6_inv (p : Node) (h0 : p.children = []) (pairs : List (Node × ℚ)) :
    (insertConcatAll p pairs).children.length = pairs.length ∧
    ∀ i : ℕ, i < pairs.length →
      ((insertConcatAll p pairs).children.getD i (.comp 0 [])).begin =
        (((insertConcatAll p pairs).children.map ext).take i).sum +
        ((pairs.map Prod.snd).take (i + 1)).sum := by
  induction pairs using List.reverseRecOn with
  | nil =>
    constructor
    · simp [insertConcatAll, h0]
    · intro i hi
      exact absurd hi (by simp)
  | append_singleton xs pr ih =>
    obtain ⟨c, g⟩ := pr
    have hstep : insertConcatAll p (xs ++ [(c, g)])
        = (add_component (insertConcatAll p xs) c "concat" g).1 := by
      rw [insertConcatAll_append]
      simp [insertConcatAll]
    set P := insertConcatAll p xs with hP
    obtain ⟨ihlen, ihval⟩ := ih
    by_cases hcs : P.children = []
    · have hxs : xs.length = 0 := by rw [← ihlen, hcs]; rfl
      have hxsnil : xs = [] := List.length_eq_zero.mp hxs
      subst hxsnil
      rw [hstep, concat_children_empty P c g hcs]
      constructor
      · simp
      · intro i hi
        have hi0 : i = 0 := by simpa using hi
        subst hi0
        simp [setBegin_begin]
    · have hlast : P.children.getLast? = some (P.children.getLast hcs) :=
        List.getLast?_eq_getLast _ hcs
      set prev := P.children.getLast hcs with hprev
      rw [hstep, concat_children_snoc P c prev g hlast]
      have hn : 0 < P.children.length := List.length_pos.2 hcs
      constructor
      · simp [ihlen]
      · intro i hi
        rcases Nat.lt_succ_iff_lt_or_eq.mp (by simpa [ihlen] using hi) with hilt | hieq
        · have hi2 : i < P.children.length := ihlen ▸ hilt
          rw [List.getD_append _ _ _ _ hi2]
          rw [List.map_append, List.take_append_of_le_length (by simpa using le_of_lt hi2)]
          rw [List.map_append, List.take_append_of_le_length (by simpa using hilt)]
          exact ihval i hilt
        · subst hieq
          rw [List.getD_append_right _ _ _ _ (le_of_eq ihlen)]
          rw [ihlen, Nat.sub_self]
          simp only [List.getD_cons_zero, setBegin_begin]
          have hlen2 : (P.children.map ext).length = xs.length := by simpa using ihlen
          rw [List.map_append, List.take_append_of_le_length (le_of_eq hlen2.symm)]
          rw [show (P.children.map ext).take xs.length = P.children.map ext from by
            rw [← hlen2, List.take_length]]
          rw [List.map_append, List.map_cons, List.map_nil]
          rw [show ((xs.map Prod.snd) ++ [g]).take (xs.length + 1)
              = (xs.map Prod.snd) ++ [g] from by
            apply List.take_of_length_le
            simp]
          rw [List.sum_append, List.sum_cons, List.sum_nil]
          have hn1 : xs.length - 1 < xs.length := by omega
          have hlastval := ihval (xs.length - 1) hn1
          have hidx : xs.length - 1 = P.children.length - 1 := by omega
          have hgetlast : P.children.getD (xs.length - 1) (.comp 0 []) = prev := by
            rw [hidx, getD_length_sub_one P.children hcs]
          rw [hgetlast] at hlastval
          have htake : ((xs.map Prod.snd).take (xs.length - 1 + 1)).sum
              = (xs.map Prod.snd).sum := by
            rw [show xs.length - 1 + 1 = xs.length from by omega]
            rw [show (xs.map Prod.snd).take xs.length = xs.map Prod.snd from by
              rw [← List.length_map xs Prod.snd, List.take_length]]
          rw [htake] at hlastval
          have hmapne : P.children.map ext ≠ [] := by simpa using hcs
          have hsum : ((P.children.map ext).take (xs.length - 1)).sum + ext prev
              = (P.children.map ext).sum := by
            have hidx2 : xs.length - 1 = (P.children.map ext).length - 1 := by
              rw [hlen2]
            have hs := sum_take_length_sub_one (P.children.map ext) hmapne
            rw [← hidx2] at hs
            rw [← hs]
            congr 1
            rw [List.getLast_map]
          have hfin : finish prev = prev.begin + ext prev := by
            simp [ext]
          rw [hfin, hlastval]
          linarith [hsum]

/-- C6 counterexample: the claim as stated fails when a child's lifetime
differs from the extent it spans — a `Tape` of clip duration `2` carrying a
`Sound` of duration `10` finishes at `10`, so the second `"concat"` child
begins at `10`, not at lifetime `2` plus the zero gaps. -/
theorem C6_counterexample : ¬ claimC6Statement := by
  intro h
  have h2 := h (.comp 0 []) [(.tape 0 2 [.sound 0 10 []], 0), (.tape 0 3 [], 0)] 1
    rfl (by norm_num)
  have e1 : ("concat" : String) ≠ "compose" := by decide
  norm_num [insertConcatAll, add_component, Node.children, Node.setBegin,
    Node.appendChild, Node.begin, lifetime, finish, childFinish, maxFin, e1] at h2

/-- C6 amended: under `"concat"` with gaps `g_1..g_n` into an initially
childless parent, the `i`-th child's `begin` equals the sum of the previous
children's extents (`finish - begin`, which equals `lifetime` for base
`Component` and `Sound` children but not for a `Tape` whose children outlast
its clip) plus the gaps `g_1..g_i`. -/
theorem C6_concat_begin_amended (p : Node) (pairs : List (Node × ℚ)) (i : ℕ)
    (h0 : p.children = []) (hi : i < pairs.length) :
    ((insertConcatAll p pairs).children.getD i (.comp 0 [])).begin =
      (((insertConcatAll p pairs).children.take i).map ext).sum +
      ((pairs.map Prod.snd).take (i + 1)).sum := by
  have h := (C6_inv p h0 pairs).2 i hi
  rw [h, List.map_take]

/-- C6 amended witness: the counterexample trees satisfy the amended
equation — the second child's begin `10` equals the first child's extent
`10` plus the zero gaps. -/
theorem C6_amended_witness :
    (Node.comp 0 []).children = [] ∧ 1 < 2 ∧
    ((insertConcatAll (Node.comp 0 [])
        [(Node.tape 0 2 [Node.sound 0 10 []], 0), (Node.tape 0 3 [], 0)]).children.getD 1
        (Node.comp 0 [])).begin =
      (((insertConcatAll (Node.comp 0 [])
        [(Node.tape 0 2 [Node.sound 0 10 []], 0), (Node.tape 0 3 [], 0)]).children.take 1).map ext).sum +
      (([(Node.tape 0 2 [Node.sound 0 10 []], (0:ℚ)), (Node.tape 0 3 [], 0)].map Prod.snd).take 2).sum := by
  refine ⟨rfl, by norm_num, ?_⟩
  exact C6_concat_begin_amended (Node.comp 0 [])
    [(Node.tape 0 2 [Node.sound 0 10 []], 0), (Node.tape 0 3 [], 0)] 1 rfl (by norm_num)

/-- C5 counterexample: the claim fails at anchor `"center"`, which ignores
the supplied offset entirely — at screen `(1200,1200)`, cell `(0,0)`, a
`2×2` clip, the output with offset `(1,1)` equals the output with offset
`(0,0)`, forcing the claimed sign to be zero. -/
theorem C5_counterexample : ¬ claimC5Statement := by
  intro h
  obtain ⟨sx, sy, hsx, hsy, hall⟩ := h "center" (by decide)
  have h1 := hall (GridSystem.ofSize (1200, 1200)) 2 2 (0, 0) 1 1
  have e : pyStripSpaces (pyLower "center") = "center" := by decide
  simp [GridSystem.get_coords, e, Except.map, GridSystem.ofSize] at h1
  exact hsx (by linarith [h1.1])

/-- C5 amended: the offset-scaling rule `offset · (dimension/2)` applies per
axis only where the anchor constrains that axis — the four corner anchors
adjust both coordinates (sign `-` toward left/top, `+` toward right/bottom),
`left`/`right` adjust only the x coordinate, `top`/`bottom` only the y
coordinate, and `center` ignores the offset entirely. -/
theorem C5_offset_amended (g : GridSystem) (w h : ℚ) (cell : ℤ × ℤ) (ox oy : ℚ) :
    GridSystem.get_coords g w h cell "center" (ox, oy)
      = GridSystem.get_coords g w h cell "center" (0, 0) ∧
    GridSystem.get_coords g w h cell "left" (ox, oy)
      = (GridSystem.get_coords g w h cell "left" (0, 0)).map
          (fun q => (q.1 - ox * (w/2), q.2)) ∧
    GridSystem.get_coords g w h cell "right" (ox, oy)
      = (GridSystem.get_coords g w h cell "right" (0, 0)).map
          (fun q => (q.1 + ox * (w/2), q.2)) ∧
    GridSystem.get_coords g w h cell "top" (ox, oy)
      = (GridSystem.get_coords g w h cell "top" (0, 0)).map
          (fun q => (q.1, q.2 - oy * (h/2))) ∧
    GridSystem.get_coords g w h cell "bottom" (ox, oy)
      = (GridSystem.get_coords g w h cell "bottom" (0, 0)).map
          (fun q => (q.1, q.2 + oy * (h/2))) ∧
    GridSystem.get_coords g w h cell "topleft" (ox, oy)
      = (GridSystem.get_coords g w h cell "topleft" (0, 0)).map
          (fun q => (q.1 - ox * (w/2), q.2 - oy * (h/2))) ∧
    GridSystem.get_coords g w h cell "topright" (ox, oy)
      = (GridSystem.get_coords g w h cell "topright" (0, 0)).map
          (fun q => (q.1 + ox * (w/2), q.2 - oy * (h/2))) ∧
    GridSystem.get_coords g w h cell "bottomleft" (ox, oy)
      = (GridSystem.get_coords g w h cell "bottomleft" (0, 0)).map
          (fun q => (q.1 - ox * (w/2), q.2 + oy * (h/2))) ∧
    GridSystem.get_coords g w h cell "bottomright" (ox, oy)
      = (GridSystem.get_coords g w h cell "bottomright" (0, 0)).map
          (fun q => (q.1 + ox * (w/2), q.2 + oy * (h/2))) := by
  have e1 : pyStripSpaces (pyLower "center") = "center" := by decide
  have e2 : pyStripSpaces (pyLower "left") = "left" := by decide
  have e3 : pyStripSpaces (pyLower "right") = "right" := by decide
  have e4 : pyStripSpaces (pyLower "top") = "top" := by decide
  have e5 : pyStripSpaces (pyLower "bottom") = "bottom" := by decide
  have e6 : pyStripSpaces (pyLower "topleft") = "topleft" := by decide
  have e7 : pyStripSpaces (pyLower "topright") = "topright" := by decide
  have e8 : pyStripSpaces (pyLower "bottomleft") = "bottomleft" := by decide
  have e9 : pyStripSpaces (pyLower "bottomright") = "bottomright" := by decide
  refine ⟨?_, ?_, ?_, ?_, ?_, ?_, ?_, ?_, ?_⟩ <;>
    simp [GridSystem.get_coords, Except.map, e1, e2, e3, e4, e5, e6, e7, e8, e9]

/-- C9: a placement policy other than the three valid names raises
`ValueError` and returns the parent with its children untouched, and an
anchor that does not normalize to one of the nine valid names raises
`ValueError` instead of producing coordinates. -/
theorem C9_invalid_rejected :
    (∀ (p c : Node) (m : String) (s : ℚ),
      m ∉ (["compose", "concat", "last"] : List String) →
      add_component p c m s = (p, some .valueError)) ∧
    (∀ (g : GridSystem) (w h : ℚ) (cell : ℤ × ℤ) (a : String) (off : ℚ × ℚ),
      pyStripSpaces (pyLower a) ∉ validAnchors →
      GridSystem.get_coords g w h cell a off = .error .valueError) := by
  constructor
  · intro p c m s hm
    simp only [List.mem_cons, List.not_mem_nil, or_false, not_or] at hm
    obtain ⟨h1, h2, h3⟩ := hm
    simp only [add_component]
    rw [if_neg h1, if_neg h2, if_neg h3]
  · intro g w h cell a off ha
    simp only [validAnchors, List.mem_cons, List.not_mem_nil, or_false, not_or] at ha
    obtain ⟨h1, h2, h3, h4, h5, h6, h7, h8, h9⟩ := ha
    simp only [GridSystem.get_coords]
    rw [if_neg h1, if_neg h2, if_neg h5, if_neg h3, if_neg h6, if_neg h7,
      if_neg h8, if_neg h9, if_neg h4]

/-- C9 witness: the unknown policy `"sandwich"` is rejected leaving the
parent unchanged, and the unknown anchor `"middle"` is rejected. -/
theorem C9_witness :
    add_component (.comp 0 []) (.comp 0 []) "sandwich" 1
      = (.comp 0 [], some .valueError) ∧
    GridSystem.get_coords (GridSystem.ofSize (1920, 1080)) 100 50 (0, 0)
      "middle" (0, 0) = .error .valueError := by
  constructor
  · exact C9_invalid_rejected.1 (.comp 0 []) (.comp 0 []) "sandwich" 1 (by decide)
  · exact C9_invalid_rejected.2 (GridSystem.ofSize (1920, 1080)) 100 50 (0, 0)
      "middle" (0, 0) (by decide)

/-- Every screen state built without a successful `compose()` still has
`_end = None`. -/
lemma builtWithoutCompose_endHandle {s : ScreenS} (h : BuiltWithoutCompose s) :
    s.endHandle = none := by
  induction h with
  | init size fps => rfl
  | addFilm s film method start _ ih =>
    simp only [ScreenS.add_film]
    split <;> simpa using ih
  | addBgMusic s snd fi fo off _ ih =>
    simpa [ScreenS.add_bg_music] using ih

/-- C8: `compose()` on a screen with no films raises `ValueError` (the
spec's `PreconditionFailed`) and leaves the screen state unchanged; and on
every state built without a successful `compose()`, each of `render`,
`get_end_video`, `show` and `preview` raises `RuntimeError` (the spec's
`NotReady`) rather than computing a result. -/
theorem C8_compose_guards :
    (∀ s : ScreenS, s.tree.children = [] →
      ScreenS.compose s = (s, some PyError.valueError)) ∧
    (∀ s : ScreenS, BuiltWithoutCompose s →
      s.render = .error .runtimeError ∧
      s.get_end_video = .error .runtimeError ∧
      s.show_window = .error .runtimeError ∧
      s.preview = .error .runtimeError) := by
  constructor
  · intro s hs
    simp [ScreenS.compose, hs]
  · intro s hb
    have he := builtWithoutCompose_endHandle hb
    refine ⟨?_, ?_, ?_, ?_⟩ <;>
      simp [ScreenS.render, ScreenS.get_end_video, ScreenS.show_window,
        ScreenS.preview, ScreenS.ensure_ready, he]

/-- C8 witness: a freshly constructed screen rejects `compose()` with
`ValueError` and `render` with `RuntimeError`. -/
theorem C8_witness :
    ScreenS.compose (ScreenS.init (1920, 1080) 24)
      = (ScreenS.init (1920, 1080) 24, some PyError.valueError) ∧
    ScreenS.render (ScreenS.init (1920, 1080) 24) = .error .runtimeError := by
  constructor
  · exact C8_compose_guards.1 (ScreenS.init (1920, 1080) 24) rfl
  · exact (C8_compose_guards.2 (ScreenS.init (1920, 1080) 24)
      (BuiltWithoutCompose.init (1920, 1080) 24)).1

/-- `getD` after a `set` at a different index is unchanged. -/
lemma getD_set_ne {α : Type} (l : List α) (a b : ℕ) (v d : α) (h : b ≠ a) :
    (l.set a v).getD b d = l.getD b d := by
  simp [List.getD, List.getElem?_set_ne (Ne.symm h)]

/-- `getD` after a `set` at the same in-range index yields the new value. -/
lemma getD_set_self {α : Type} (l : List α) (a : ℕ) (v d : α) (h : a < l.length) :
    (l.set a v).getD a d = v := by
  simp [List.getD, List.getElem?_set, h]

/-- Rebinding `begin` on one object leaves every other object unchanged. -/
lemma setBegin_obj_ne (H : PyHeap) (a b : ℕ) (v : ℚ) (hne : b ≠ a) :
    (H.setBegin a v).obj b = H.obj b := by
  simp only [PyHeap.setBegin, PyHeap.obj]
  exact getD_set_ne _ _ _ _ _ hne

/-- Rebinding `animations` on one object leaves every other object
unchanged. -/
lemma replaceAnims_obj_ne (H : PyHeap) (a b : ℕ) (w : ℕ) (hne : b ≠ a) :
    (H.replaceAnims a w).obj b = H.obj b := by
  simp only [PyHeap.replaceAnims, PyHeap.obj]
  exact getD_set_ne _ _ _ _ _ hne

/-- Rebinding `begin` on one object does not change the observation of any
other object. -/
lemma observe_setBegin_ne (H : PyHeap) (a b : ℕ) (v : ℚ) (hne : b ≠ a) :
    observe (H.setBegin a v) b = observe H b := by
  unfold observe PyHeap.childList PyHeap.effectList PyHeap.animVal
  rw [setBegin_obj_ne H a b v hne]
  rfl

/-- Rebinding `animations` on one object does not change the observation of
another object whose animation cell is already allocated. -/
lemma observe_replaceAnims_ne (H : PyHeap) (a b : ℕ) (w : ℕ) (hne : b ≠ a)
    (hlt : (H.obj b).animsRef < H.animCells.length) :
    observe (H.replaceAnims a w) b = observe H b := by
  unfold observe PyHeap.childList PyHeap.effectList PyHeap.animVal
  rw [replaceAnims_obj_ne H a b w hne]
  show (_, _, _, (H.animCells ++ [w]).getD (H.obj b).animsRef 0)
      = (_, _, _, H.animCells.getD (H.obj b).animsRef 0)
  rw [List.getD_append _ _ _ _ hlt]
  rfl

/-- The freshly inserted copy is the source object with its `begin` slot
rebound — in particular it shares the source's container references. -/
lemma postInsert_obj_k (h : PyHeap) (p c : ℕ) (β : ℚ) :
    ((((h.shallowCopy c).1.setBegin h.objs.length β).appendChild
        p h.objs.length).obj h.objs.length)
      = { h.obj c with begin := β } := by
  have h1k : (h.shallowCopy c).1.obj h.objs.length = h.obj c := by
    simp only [PyHeap.shallowCopy, PyHeap.obj]
    rw [List.getD_append_right _ _ _ _ (le_refl _), Nat.sub_self]
    rfl
  show (((h.shallowCopy c).1.setBegin h.objs.length β)).obj h.objs.length
      = { h.obj c with begin := β }
  simp only [PyHeap.setBegin, PyHeap.obj]
  rw [getD_set_self _ _ _ _ (by simp [PyHeap.shallowCopy])]
  show { (h.shallowCopy c).1.obj h.objs.length with begin := β } = _
  rw [h1k]
  rfl

/-- After a copy-then-append insertion, the copy shares the source's
container references, and attribute rebinding on the source (of `begin` or
of `animations`) does not change the copy's observation. -/
lemma postInsert_preserved (h H : PyHeap) (p c : ℕ) (β v : ℚ) (w : ℕ)
    (hc : c < h.objs.length) (ha : (h.obj c).animsRef < h.animCells.length)
    (hH : H = ((h.shallowCopy c).1.setBegin h.objs.length β).appendChild
        p h.objs.length) :
    (H.obj h.objs.length).childrenRef = (h.obj c).childrenRef ∧
    (H.obj h.objs.length).effectsRef = (h.obj c).effectsRef ∧
    observe (H.setBegin c v) h.objs.length = observe H h.objs.length ∧
    observe (H.replaceAnims c w) h.objs.length = observe H h.objs.length := by
  have hkne : h.objs.length ≠ c := by omega
  have hobjk : H.obj h.objs.length = { h.obj c with begin := β } := by
    rw [hH]
    exact postInsert_obj_k h p c β
  have hanim : H.animCells = h.animCells := by
    rw [hH]
    rfl
  refine ⟨by rw [hobjk], by rw [hobjk], observe_setBegin_ne H c _ v hkne, ?_⟩
  apply observe_replaceAnims_ne H c _ w hkne
  rw [hobjk, hanim]
  exact ha

/-- C1 counterexample: `Component.copy` is `copy.copy`, a shallow copy, so
the inserted child shares the caller instance's `children` list — appending
to the original's children after insertion changes the inserted child's
observable children. -/
theorem C1_counterexample : ¬ claimC1Statement := by
  intro hcl
  have h2 := hcl exHeap 0 1 "compose" 0 (.appendToChildren 0) (Or.inl rfl)
  norm_num [exHeap, add_componentH, applyMutation, observe, PyHeap.shallowCopy,
    PyHeap.setBegin, PyHeap.appendChild, PyHeap.appendEffect, PyHeap.replaceAnims,
    PyHeap.obj, PyHeap.childList, PyHeap.effectList, PyHeap.animVal] at h2

/-- C1 amended: `add_component` (any valid policy) inserts a shallow copy
that succeeds and shares the original's `children` and `effects` container
references; mutations of the caller's original that rebind attribute slots —
reassigning its `begin`, or replacing its `animations` wholesale — leave the
inserted copy's observable state unchanged, but in-place mutation of the
shared containers is visible through the copy (see the counterexample). -/
theorem C1_shallow_insert_amended (h : PyHeap) (p c : ℕ) (method : String)
    (start v : ℚ) (w : ℕ)
    (hc : c < h.objs.length)
    (ha : (h.obj c).animsRef < h.animCells.length)
    (hm : method = "compose" ∨ method = "concat" ∨ method = "last") :
    (add_componentH h p c method start).2.1 = none ∧
    ((add_componentH h p c method start).1.obj
        (add_componentH h p c method start).2.2).childrenRef = (h.obj c).childrenRef ∧
    ((add_componentH h p c method start).1.obj
        (add_componentH h p c method start).2.2).effectsRef = (h.obj c).effectsRef ∧
    observe ((add_componentH h p c method start).1.setBegin c v)
        (add_componentH h p c method start).2.2
      = observe (add_componentH h p c method start).1
        (add_componentH h p c method start).2.2 ∧
    observe ((add_componentH h p c method start).1.replaceAnims c w)
        (add_componentH h p c method start).2.2
      = observe (add_componentH h p c method start).1
        (add_componentH h p c method start).2.2 := by
  have key : ∃ β : ℚ,
      add_componentH h p c method start
        = (((h.shallowCopy c).1.setBegin h.objs.length β).appendChild p h.objs.length,
           none, h.objs.length) := by
    rcases hm with rfl | rfl | rfl
    · exact ⟨((h.shallowCopy c).1.obj p).begin + start,
        by simp [add_componentH, PyHeap.shallowCopy]⟩
    · cases hl : ((h.shallowCopy c).1.childList p).getLast? with
      | none =>
        refine ⟨start, ?_⟩
        simp only [PyHeap.shallowCopy] at hl
        simp [add_componentH, PyHeap.shallowCopy, hl]
      | some prev =>
        refine ⟨finishH (h.shallowCopy c).1.objs.length (h.shallowCopy c).1 prev + start, ?_⟩
        simp only [PyHeap.shallowCopy] at hl ⊢
        simp [add_componentH, PyHeap.shallowCopy, hl]
    · cases hl : ((h.shallowCopy c).1.childList p).getLast? with
      | none =>
        refine ⟨start, ?_⟩
        simp only [PyHeap.shallowCopy] at hl
        simp [add_componentH, PyHeap.shallowCopy, hl]
      | some prev =>
        refine ⟨((h.shallowCopy c).1.obj prev).begin + start, ?_⟩
        simp only [PyHeap.shallowCopy] at hl ⊢
        simp [add_componentH, PyHeap.shallowCopy, hl]
  obtain ⟨β, hβ⟩ := key
  rw [hβ]
  have hpres := postInsert_preserved h _ p c β v w hc ha rfl
  exact ⟨rfl, hpres.1, hpres.2.1, hpres.2.2.1, hpres.2.2.2⟩

/-- C1 amended witness: in the two-object heap, inserting the tape at
address `1` into the component at address `0` succeeds, and reassigning the
original tape's `begin` to `99` afterwards leaves the inserted copy's
observation unchanged. -/
theorem C1_amended_witness :
    1 < exHeap.objs.length ∧
    (exHeap.obj 1).animsRef < exHeap.animCells.length ∧
    (add_componentH exHeap 0 1 "compose" 0).2.1 = none ∧
    observe ((add_componentH exHeap 0 1 "compose" 0).1.setBegin 1 99)
        (add_componentH exHeap 0 1 "compose" 0).2.2
      = observe (add_componentH exHeap 0 1 "compose" 0).1
        (add_componentH exHeap 0 1 "compose" 0).2.2 := by
  have h := C1_shallow_insert_amended exHeap 0 1 "compose" 0 99 7
    (by norm_num [exHeap]) (by norm_num [exHeap, PyHeap.obj]) (Or.inl rfl)
  exact ⟨by norm_num [exHeap], by norm_num [exHeap, PyHeap.obj], h.1, h.2.2.2.1⟩

end EditFlow
